import Mathlib

/-!
Verification of the probability-estimation engine of the NBA parlay
predictor.  The definitions below are a shallow embedding of the Python
sources `backend/hypothetical.py` (the v4 range-sweep variant) and
`backend/tempCodeRunnerFile.py` (the single-line variant).  Python floats
are modelled as real numbers; Python dictionaries with a fixed key set are
modelled as structures with `Option`-valued fields, `d.get k default`
becoming `Option.getD`.
-/

namespace NBAPred

noncomputable section

/-- Over/Under direction.  The interactive prompts only ever produce the
strings "O" and "U", so the direction is modelled as a two-element type. -/
inductive Dir where
  | O
  | U
deriving DecidableEq, Repr

/-- `WEIGHTS` dictionary of `hypothetical.py` (line 29). -/
structure Weights where
  baseline : ℝ
  recent : ℝ
  h2h : ℝ
  injury : ℝ

/-- `WEIGHTS = {"baseline":0.35,"recent":0.30,"h2h":0.20,"injury":0.15}` -/
def WEIGHTS : Weights := ⟨0.35, 0.30, 0.20, 0.15⟩

/-- `MIN_EMPIRICAL = 10` -/
def MIN_EMPIRICAL : ℕ := 10

/-- `H2H_GAMES = 5` (same value as `H2H_LOOKBACK_GAMES` in the single-line
variant). -/
def H2H_GAMES : ℕ := 5

/-- `INJ_WEIGHT = 0.01` (same value as `INJ_USAGE_WEIGHT` in the
single-line variant). -/
def INJ_WEIGHT : ℝ := 0.01

/-- `LG_OFF = 110.0` (league-average offensive rating). -/
def LG_OFF : ℝ := 110.0

/-- `LG_DEF = 110.0` (league-average defensive rating). -/
def LG_DEF : ℝ := 110.0

/-- `LG_PACE = 100.0` (league-average pace). -/
def LG_PACE : ℝ := 100.0

/-- The mathematical error function, modelling Python's `math.erf`. -/
def erf (x : ℝ) : ℝ := (2 / Real.sqrt Real.pi) * ∫ t in (0:ℝ)..x, Real.exp (-(t ^ 2))

/-- `normal_cdf(x) = 0.5 * (1 + math.erf(x / math.sqrt(2)))` -/
def normal_cdf (x : ℝ) : ℝ := 0.5 * (1 + erf (x / Real.sqrt 2))

/-- `empirical_prob(vals, line, ou)`: the number of sample values strictly
beyond the line in the requested direction, divided by the sample size
(`(arr > line).sum() / len(arr)` resp. `(arr < line).sum() / len(arr)`). -/
def empirical_prob (vals : List ℝ) (line : ℝ) (ou : Dir) : ℝ :=
  match ou with
  | .O => (vals.countP (fun v => decide (line < v)) : ℝ) / (vals.length : ℝ)
  | .U => (vals.countP (fun v => decide (v < line)) : ℝ) / (vals.length : ℝ)

/-- `gauss_prob(mean, std, line, ou)` of `hypothetical.py`. -/
def gauss_prob (mean std line : ℝ) (ou : Dir) : ℝ :=
  if std ≤ 0 then
    if (ou = .O ∧ mean > line) ∨ (ou = .U ∧ mean < line) then 1.0 else 0.0
  else
    let z := (line - mean) / std
    match ou with
    | .O => 1 - normal_cdf z
    | .U => normal_cdf z

/-- `calc_prob(mean, std, line, ou)` of `tempCodeRunnerFile.py`; its body is
textually identical to `gauss_prob`. -/
def calc_prob (mean std line : ℝ) (ou : Dir) : ℝ :=
  if std ≤ 0 then
    if (ou = .O ∧ mean > line) ∨ (ou = .U ∧ mean < line) then 1.0 else 0.0
  else
    let z := (line - mean) / std
    match ou with
    | .O => 1 - normal_cdf z
    | .U => normal_cdf z

/-- A player's advanced-stat dictionary, restricted to the keys the engine
reads.  An absent key is `none`; `adv.get k default` is `Option.getD`. -/
structure AdvDict where
  off_rating : Option ℝ := none
  pace : Option ℝ := none
  def_rating : Option ℝ := none
  usg_pct : Option ℝ := none

/-- `adv_reg.get("OFF_RATING", LG_OFF) / LG_OFF` (hypothetical.py line 111;
the same formula appears at tempCodeRunnerFile.py line 308). -/
def off_factor (adv : AdvDict) : ℝ := adv.off_rating.getD LG_OFF / LG_OFF

/-- `adv_reg.get("PACE", LG_PACE) / LG_PACE` (hypothetical.py line 112;
the same formula appears at tempCodeRunnerFile.py line 309). -/
def pace_factor (adv : AdvDict) : ℝ := adv.pace.getD LG_PACE / LG_PACE

/-- `LG_DEF / opp_adv_reg.get("DEF_RATING", LG_DEF)` (hypothetical.py line
113; the same formula appears at tempCodeRunnerFile.py line 313). -/
def def_factor (opp_adv : AdvDict) : ℝ := LG_DEF / opp_adv.def_rating.getD LG_DEF

/-- The raw-probability choice inside `generate_probabilities`
(hypothetical.py lines 106-109): empirical when the sample has at least
`MIN_EMPIRICAL` values, Gaussian otherwise. -/
def raw_prob (blend_mean blend_std : ℝ) (hist_vals : List ℝ) (line : ℝ) (ou : Dir) : ℝ :=
  if MIN_EMPIRICAL ≤ hist_vals.length then
    empirical_prob hist_vals line ou
  else
    gauss_prob blend_mean blend_std line ou

/-- One iteration of the sweep loop of `generate_probabilities`
(hypothetical.py lines 105-117): raw probability, the six context factors,
and the clamp `max(0, min(1, p_final))`. -/
def line_entry (blend_mean blend_std : ℝ) (hist_vals : List ℝ)
    (adv_reg opp_adv_reg : AdvDict) (inj_mult rest_mult home_mult : ℝ)
    (ou : Dir) (line : ℤ) : ℤ × ℝ :=
  let p_raw := raw_prob blend_mean blend_std hist_vals (line : ℝ) ou
  let p_final := p_raw * off_factor adv_reg * pace_factor adv_reg *
    def_factor opp_adv_reg * inj_mult * rest_mult * home_mult
  (line, max 0 (min 1 p_final))

/-- `np.arange(line_min, line_max + 1)` for integer bounds: the integers
`line_min, line_min+1, ..., line_max` (empty when `line_max < line_min`). -/
def sweepLines (line_min line_max : ℤ) : List ℤ :=
  (List.range (line_max + 1 - line_min).toNat).map (fun i : ℕ => line_min + (i : ℤ))

/-- `generate_probabilities` (hypothetical.py lines 103-119): sweep the
integer lines, build each entry, and return
`sorted(results, key=lambda x: x[1], reverse=(ou == "O"))`.  Python's
`sorted` is a stable sort, ascending in the key, and `reverse=True` gives
the stable descending order; both are modelled with the stable
`List.mergeSort`. -/
def generate_probabilities (blend_mean blend_std : ℝ) (hist_vals : List ℝ)
    (adv_reg opp_adv_reg : AdvDict) (inj_mult rest_mult home_mult : ℝ)
    (ou : Dir) (line_min line_max : ℤ) : List (ℤ × ℝ) :=
  let results := (sweepLines line_min line_max).map
    (line_entry blend_mean blend_std hist_vals adv_reg opp_adv_reg
      inj_mult rest_mult home_mult ou)
  if ou = .O then
    results.mergeSort (fun a b => decide (b.2 ≤ a.2))
  else
    results.mergeSort (fun a b => decide (a.2 ≤ b.2))

/-- The blended mean of the v4 variant (hypothetical.py lines 285-290). -/
def blend_mean_v4 (baseline recent_mean h2h_mean inj_mult : ℝ) : ℝ :=
  WEIGHTS.baseline * baseline +
  WEIGHTS.recent * recent_mean +
  WEIGHTS.h2h * h2h_mean +
  WEIGHTS.injury * (baseline * inj_mult)

/-- The blended mean of the single-line variant (tempCodeRunnerFile.py
lines 296-301): weights 0.4, 0.3, 0.2, 0.1. -/
def blend_mean_single (baseline recent_mean h2h_mean inj_usage_mult : ℝ) : ℝ :=
  0.4 * baseline +
  0.3 * recent_mean +
  0.2 * h2h_mean +
  0.1 * (baseline * inj_usage_mult)

/-- Steps 9-12 of `main` in `tempCodeRunnerFile.py` (lines 305-317): the
raw probability, the offense/pace product, the defender factor, and the
final clamp `max(0.0, min(1.0, prob))` before printing. -/
def single_line_prob (blend_mean blend_std : ℝ) (adv opp_adv : AdvDict)
    (line_val : ℝ) (ou : Dir) : ℝ :=
  let prob := calc_prob blend_mean blend_std line_val ou
  let prob := prob * (off_factor adv * pace_factor adv)
  let prob := prob * def_factor opp_adv
  max 0.0 (min 1.0 prob)

/-- A generic measure dictionary returned by the stat fetchers; only the
usage% key is ever read by the injury loop. -/
structure StatDict where
  usg_pct : Option ℝ := none

/-- A Python value appearing in the tuple returned by `get_player_stats`:
either the numeric player id or one of the stat dictionaries. -/
inductive PyVal where
  | pid : ℕ → PyVal
  | dict : StatDict → PyVal

/-- The acquisition collaborator: name resolution and the three stat
endpoints.  `get_nba_stats(...) or {}` always yields a dictionary, so the
endpoints are total; only name resolution can fail. -/
structure Fetcher where
  search : String → Option ℕ
  base : ℕ → StatDict
  adv : ℕ → StatDict
  hustle : ℕ → StatDict

/-- `get_player_stats` (hypothetical.py lines 93-101): raises when the name
resolves to no id, otherwise returns the 4-tuple
`(pid, base, adv, hustle)`, modelled as a list of Python values so that
tuple unpacking can be expressed. -/
def get_player_stats (f : Fetcher) (name : String) : Except Unit (List PyVal) :=
  match f.search name with
  | none => .error ()
  | some pid => .ok [.pid pid, .dict (f.base pid), .dict (f.adv pid), .dict (f.hustle pid)]

/-- Python tuple unpacking `a, b = xs`: succeeds exactly when the iterable
has two elements, otherwise raises `ValueError`. -/
def unpackPair (xs : List PyVal) : Except Unit (PyVal × PyVal) :=
  match xs with
  | [a, b] => .ok (a, b)
  | _ => .error ()

/-- `v.get("USG_PCT", 0.0)`: succeeds on a dictionary, raises
`AttributeError` on a non-dictionary value. -/
def pyGetUsg (v : PyVal) : Except Unit ℝ :=
  match v with
  | .dict d => .ok (d.usg_pct.getD 0.0)
  | .pid _ => .error ()

/-- The body of the `try` block of the injury loop in
`compute_injury_usage_impact` (hypothetical.py lines 72-76):
`_, adv = get_player_stats(fetcher, name, "Playoffs")` followed by
`adv.get("USG_PCT", 0.0)`.  Any raised exception is caught by the bare
`except`. -/
def injury_try_body (f : Fetcher) (name : String) : Except Unit ℝ := do
  let r ← get_player_stats f name
  let (_, adv) ← unpackPair r
  pyGetUsg adv

/-- `compute_injury_usage_impact` (hypothetical.py lines 69-81): sum the
usage% of each injured player, skipping any iteration that raises, then
return `1 + total_usg * INJ_WEIGHT`. -/
def compute_injury_usage_impact (f : Fetcher) (injuries : List String) : ℝ :=
  let total_usg := injuries.foldl
    (fun acc name =>
      match injury_try_body f name with
      | .ok usg => acc + usg
      | .error _ => acc)
    0.0
  1 + total_usg * INJ_WEIGHT

/-- One game row of the recent-games log: the matchup string and the three
counting stats read by `compute_head_to_head`. -/
structure Game where
  matchup : String
  pts : ℝ
  reb : ℝ
  ast : ℝ

/-- Whether the pattern occurs at the start of the character list. -/
def charsStart : List Char → List Char → Bool
  | [], _ => true
  | _ :: _, [] => false
  | p :: ps, c :: cs => decide (p = c) && charsStart ps cs

/-- Whether the pattern occurs anywhere in the character list. -/
def charsSub (pat : List Char) : List Char → Bool
  | [] => pat.isEmpty
  | c :: cs => charsStart pat (c :: cs) || charsSub pat cs

/-- Python's `pat in s` substring test. -/
def strContains (s pat : String) : Bool := charsSub pat.toList s.toList

/-- Arithmetic mean (`pandas .mean()`). -/
def listMean (xs : List ℝ) : ℝ := xs.sum / (xs.length : ℝ)

/-- Sample standard deviation with divisor `n − 1` (`pandas .std()`). -/
def sampleStd (xs : List ℝ) : ℝ :=
  Real.sqrt ((xs.map (fun x => (x - listMean xs) ^ 2)).sum / ((xs.length : ℝ) - 1))

/-- `compute_head_to_head` (tempCodeRunnerFile.py lines 163-176): filter the
recent games to those whose matchup string contains `" " ++ opp_abbrev`,
keep the first `H2H_GAMES`, and return the per-stat means and sample
standard deviations as dictionaries keyed "PTS"/"REB"/"AST" (both empty
when no head-to-head game exists). -/
def compute_head_to_head (games : List Game) (opp_abbrev : String) :
    List (String × ℝ) × List (String × ℝ) :=
  let h2h := ((games.filter (fun g => strContains g.matchup (" " ++ opp_abbrev))).take H2H_GAMES)
  if h2h.isEmpty then ([], [])
  else
    ([("PTS", listMean (h2h.map Game.pts)),
      ("REB", listMean (h2h.map Game.reb)),
      ("AST", listMean (h2h.map Game.ast))],
     [("PTS", sampleStd (h2h.map Game.pts)),
      ("REB", sampleStd (h2h.map Game.reb)),
      ("AST", sampleStd (h2h.map Game.ast))])

/-- Python's `d.get(k, default)` on an association-list dictionary. -/
def dictGet (d : List (String × ℝ)) (k : String) (dflt : ℝ) : ℝ :=
  match d.find? (fun p => p.1 == k) with
  | some p => p.2
  | none => dflt

/-- Step 8 of `main` in `tempCodeRunnerFile.py` (line 295):
`h2h_mean = h2h_means.get(stat_choice, baseline) if len(stat_choice)==1
else baseline`, with `h2h_means` produced by `compute_head_to_head`. -/
def main_h2h_mean (games : List Game) (opp_abbrev : String)
    (stat_choice : String) (baseline : ℝ) : ℝ :=
  let h2h_means := (compute_head_to_head games opp_abbrev).1
  if stat_choice.length = 1 then dictGet h2h_means stat_choice baseline
  else baseline

end

/-- Claim C3 (counterexample): the single-line variant's blended mean does
not follow the 0.35/0.30/0.20/0.15 weighting — at baseline 1 and all other
signals 0 it yields 0.4, not 0.35. -/
theorem blend_mean_single_ne_claimed :
    blend_mean_single 1 0 0 0 ≠ 0.35 * 1 + 0.30 * 0 + 0.20 * 0 + 0.15 * (1 * 0) := by
  unfold blend_mean_single
  norm_num

/-- Claim C3 (amended): the v4 variant blends with weights
0.35/0.30/0.20/0.15, which sum to exactly 1, while the single-line variant
blends with weights 0.4/0.3/0.2/0.1, which also sum to exactly 1. -/
theorem blend_mean_formulas (b r h i : ℝ) :
    blend_mean_v4 b r h i = 0.35 * b + 0.30 * r + 0.20 * h + 0.15 * (b * i) ∧
    WEIGHTS.baseline + WEIGHTS.recent + WEIGHTS.h2h + WEIGHTS.injury = 1 ∧
    blend_mean_single b r h i = 0.4 * b + 0.3 * r + 0.2 * h + 0.1 * (b * i) ∧
    (0.4 + 0.3 + 0.2 + 0.1 : ℝ) = 1 := by
  refine ⟨?_, ?_, ?_, ?_⟩
  · unfold blend_mean_v4 WEIGHTS; norm_num
  · unfold WEIGHTS; norm_num
  · unfold blend_mean_single; norm_num
  · norm_num

/-- Claim C5: when `std ≤ 0` both parametric estimators return 1.0 exactly
when the mean strictly satisfies the direction and 0.0 otherwise; the
degenerate branch performs no division by `std`. -/
theorem gauss_prob_degenerate (mean std line : ℝ) (ou : Dir) (h : std ≤ 0) :
    gauss_prob mean std line ou =
      (if (ou = .O ∧ mean > line) ∨ (ou = .U ∧ mean < line) then 1.0 else 0.0) ∧
    calc_prob mean std line ou =
      (if (ou = .O ∧ mean > line) ∨ (ou = .U ∧ mean < line) then 1.0 else 0.0) := by
  constructor
  · unfold gauss_prob; rw [if_pos h]
  · unfold calc_prob; rw [if_pos h]

/-- Claim C5 (witness): mean 20, std 0, line 15, direction over gives
probability exactly 1.0, and line 25 gives exactly 0.0. -/
theorem gauss_prob_degenerate_witness :
    gauss_prob 20 0 15 .O = 1.0 ∧ gauss_prob 20 0 25 .O = 0.0 := by
  have h1 := (gauss_prob_degenerate 20 0 15 .O le_rfl).1
  have h2 := (gauss_prob_degenerate 20 0 25 .O le_rfl).1
  have hneg : ¬ ((Dir.O = Dir.O ∧ (20:ℝ) > 25) ∨ (Dir.O = Dir.U ∧ (20:ℝ) < 25)) := by
    rintro (⟨-, hgt⟩ | ⟨heq, -⟩)
    · norm_num at hgt
    · exact Dir.noConfusion heq
  rw [if_pos (Or.inl ⟨rfl, by norm_num⟩)] at h1
  rw [if_neg hneg] at h2
  exact ⟨h1, h2⟩

/-- Claim C7: for positive standard deviation the parametric probabilities
of the two directions at the same line are exactly complementary. -/
theorem gauss_prob_complementary (mean std line : ℝ) (h : 0 < std) :
    gauss_prob mean std line .O + gauss_prob mean std line .U = 1 ∧
    calc_prob mean std line .O + calc_prob mean std line .U = 1 := by
  have h' : ¬ std ≤ 0 := not_le.mpr h
  constructor
  · unfold gauss_prob; rw [if_neg h', if_neg h']; ring
  · unfold calc_prob; rw [if_neg h', if_neg h']; ring

/-- Claim C7 (witness): at mean 20, std 1, line 15 the over and under
parametric probabilities sum to exactly 1. -/
theorem gauss_prob_complementary_witness :
    gauss_prob 20 1 15 .O + gauss_prob 20 1 15 .U = 1 :=
  (gauss_prob_complementary 20 1 15 one_pos).1

/-- Claim C4: with at least `MIN_EMPIRICAL` historical values the raw
probability is the empirical one and is independent of the blended
mean/std; with fewer values it is the Gaussian estimate. -/
theorem raw_prob_policy (bm bm' bs bs' : ℝ) (hist : List ℝ) (line : ℝ) (ou : Dir) :
    (MIN_EMPIRICAL ≤ hist.length →
      raw_prob bm bs hist line ou = empirical_prob hist line ou ∧
      raw_prob bm bs hist line ou = raw_prob bm' bs' hist line ou) ∧
    (hist.length < MIN_EMPIRICAL →
      raw_prob bm bs hist line ou = gauss_prob bm bs line ou) := by
  constructor
  · intro h
    constructor
    · unfold raw_prob; rw [if_pos h]
    · unfold raw_prob; rw [if_pos h, if_pos h]
  · intro h
    unfold raw_prob; rw [if_neg (not_le.mpr h)]

/-- Claim C4 (witness): on a 10-game sample the raw probability is the
empirical probability whatever the blended mean/std, and on an empty
sample it is the Gaussian estimate. -/
theorem raw_prob_policy_witness :
    raw_prob 0 1 [10, 12, 14, 16, 18, 20, 22, 24, 26, 28] 18 .O =
      empirical_prob [10, 12, 14, 16, 18, 20, 22, 24, 26, 28] 18 .O ∧
    raw_prob 0 1 [10, 12, 14, 16, 18, 20, 22, 24, 26, 28] 18 .O =
      raw_prob 99 99 [10, 12, 14, 16, 18, 20, 22, 24, 26, 28] 18 .O ∧
    raw_prob 7 2 [] 18 .O = gauss_prob 7 2 18 .O := by
  have h1 := (raw_prob_policy 0 99 1 99 [10, 12, 14, 16, 18, 20, 22, 24, 26, 28] 18 .O).1
    (by unfold MIN_EMPIRICAL; simp)
  have h2 := (raw_prob_policy 7 0 2 0 [] 18 .O).2 (by unfold MIN_EMPIRICAL; simp)
  exact ⟨h1.1, h1.2, h2⟩

/-- Claim C6: the empirical probability is the count of sample values
strictly beyond the line in the requested direction divided by the sample
size, and on the 10-game sample 10..28 at line 18 over it is exactly 1/2. -/
theorem empirical_prob_spec (vals : List ℝ) (line : ℝ) (_h : vals ≠ []) :
    empirical_prob vals line .O =
      ((vals.filter (fun v => decide (line < v))).length : ℝ) / (vals.length : ℝ) ∧
    empirical_prob vals line .U =
      ((vals.filter (fun v => decide (v < line))).length : ℝ) / (vals.length : ℝ) ∧
    empirical_prob [10, 12, 14, 16, 18, 20, 22, 24, 26, 28] 18 .O = 1 / 2 := by
  refine ⟨?_, ?_, ?_⟩
  · simp only [empirical_prob]; rw [List.countP_eq_length_filter]
  · simp only [empirical_prob]; rw [List.countP_eq_length_filter]
  · simp only [empirical_prob]
    norm_num [List.countP_cons, List.countP_nil]

/-- Claim C6 (witness): the concrete 10-game sample at line 18 over yields
probability exactly 1/2. -/
theorem empirical_prob_spec_witness :
    empirical_prob [10, 12, 14, 16, 18, 20, 22, 24, 26, 28] 18 .O = 1 / 2 :=
  (empirical_prob_spec [10, 12, 14, 16, 18, 20, 22, 24, 26, 28] 18 (by simp)).2.2

/-- Claim C8: the defensive factor is the league-average defensive rating
(110.0) divided by the opposing defender's rating; a missing rating gives
factor exactly 1.0, and a (positive) rating below the league average gives
a factor strictly greater than 1. -/
theorem def_factor_spec (opp_adv : AdvDict) (r : ℝ) :
    LG_DEF = 110.0 ∧
    (opp_adv.def_rating = none → def_factor opp_adv = 1.0) ∧
    (opp_adv.def_rating = some r →
      def_factor opp_adv = LG_DEF / r ∧
      (0 < r → r < LG_DEF → 1 < def_factor opp_adv)) := by
  refine ⟨rfl, ?_, ?_⟩
  · intro h
    unfold def_factor LG_DEF
    rw [h]
    norm_num
  · intro h
    have he : def_factor opp_adv = LG_DEF / r := by
      unfold def_factor
      rw [h]
      rfl
    refine ⟨he, ?_⟩
    intro h0 h110
    rw [he]
    exact (one_lt_div h0).mpr h110

/-- Claim C8 (witness): a defender rated 100 gives factor 110/100 > 1, and
an absent rating gives factor exactly 1.0. -/
theorem def_factor_spec_witness :
    def_factor ⟨none, none, some 100, none⟩ = LG_DEF / 100 ∧
    1 < def_factor ⟨none, none, some 100, none⟩ ∧
    def_factor ⟨none, none, none, none⟩ = 1.0 := by
  have h1 := (def_factor_spec ⟨none, none, some 100, none⟩ 100).2.2 rfl
  have h2 := (def_factor_spec ⟨none, none, none, none⟩ 0).2.1 rfl
  exact ⟨h1.1, h1.2 (by norm_num) (by unfold LG_DEF; norm_num), h2⟩

/-- Every iteration of the injury loop raises: either name resolution
fails, or the 4-tuple returned by `get_player_stats` cannot be unpacked
into the two names of `_, adv = get_player_stats(...)`. -/
lemma injury_try_body_raises (f : Fetcher) (name : String) :
    injury_try_body f name = .error () := by
  unfold injury_try_body get_player_stats
  cases f.search name with
  | none => rfl
  | some pid => rfl

/-- Claim C9: in the v4 range-sweep variant the injury multiplier is
always exactly 1.0 — every loop iteration's 2-name unpacking of the
4-tuple raises, the bare `except` swallows it, the summed usage stays 0,
and `1 + 0 * 0.01 = 1`. -/
theorem compute_injury_usage_impact_always_one (f : Fetcher) (injuries : List String) :
    compute_injury_usage_impact f injuries = 1 := by
  unfold compute_injury_usage_impact
  have hfold : injuries.foldl
      (fun acc name =>
        match injury_try_body f name with
        | .ok usg => acc + usg
        | .error _ => acc)
      0.0 = 0.0 := by
    induction injuries with
    | nil => rfl
    | cons a l ih =>
      rw [List.foldl_cons, injury_try_body_raises f a]
      exact ih
  rw [hfold]
  norm_num

/-- The head-to-head means dictionary never carries a key other than
"PTS", "REB", "AST", so any other lookup falls back to the default. -/
lemma dictGet_h2h_means_miss (games : List Game) (opp_abbrev k : String) (dflt : ℝ)
    (h1 : ("PTS" == k) = false) (h2 : ("REB" == k) = false) (h3 : ("AST" == k) = false) :
    dictGet (compute_head_to_head games opp_abbrev).1 k dflt = dflt := by
  simp only [compute_head_to_head]
  split
  · rfl
  · simp [dictGet, List.find?, h1, h2, h3]

/-- Claim C10: for every stat choice the interactive prompt can produce,
the head-to-head mean used by the single-line variant's blend equals the
baseline: multi-letter choices take the `else baseline` branch, and the
single letters "P"/"R"/"A" never match the dictionary keys
"PTS"/"REB"/"AST". -/
theorem main_h2h_mean_eq_baseline (games : List Game) (opp_abbrev : String)
    (baseline : ℝ) (stat_choice : String)
    (hc : stat_choice ∈ ["P", "R", "A", "PR", "PA", "RA", "PRA"]) :
    main_h2h_mean games opp_abbrev stat_choice baseline = baseline := by
  simp only [List.mem_cons, List.not_mem_nil, or_false] at hc
  rcases hc with h | h | h | h | h | h | h <;> subst h <;>
    unfold main_h2h_mean
  · rw [if_pos (by decide)]
    exact dictGet_h2h_means_miss games opp_abbrev "P" baseline (by decide) (by decide) (by decide)
  · rw [if_pos (by decide)]
    exact dictGet_h2h_means_miss games opp_abbrev "R" baseline (by decide) (by decide) (by decide)
  · rw [if_pos (by decide)]
    exact dictGet_h2h_means_miss games opp_abbrev "A" baseline (by decide) (by decide) (by decide)
  · rw [if_neg (by decide)]
  · rw [if_neg (by decide)]
  · rw [if_neg (by decide)]
  · rw [if_neg (by decide)]

/-- Claim C10 (witness): with a head-to-head history that does populate
the means dictionary, the blend input for choice "P" is still the
baseline. -/
theorem main_h2h_mean_eq_baseline_witness :
    main_h2h_mean [⟨" BOS", 30, 10, 5⟩] "BOS" "P" 7 = 7 :=
  main_h2h_mean_eq_baseline [⟨" BOS", 30, 10, 5⟩] "BOS" 7 "P" (by simp)

lemma sweepLines_length (lo hi : ℤ) : (sweepLines lo hi).length = (hi + 1 - lo).toNat := by
  unfold sweepLines
  rw [List.length_map, List.length_range]

lemma sweepLines_16_17 : sweepLines 16 17 = [16, 17] := by decide

lemma emp_under_16 :
    empirical_prob [10, 12, 14, 16, 18, 20, 22, 24, 26, 28] 16 .U = 3 / 10 := by
  simp only [empirical_prob]
  norm_num [List.countP_cons, List.countP_nil]

lemma emp_under_17 :
    empirical_prob [10, 12, 14, 16, 18, 20, 22, 24, 26, 28] 17 .U = 4 / 10 := by
  simp only [empirical_prob]
  norm_num [List.countP_cons, List.countP_nil]

lemma entry_16 :
    line_entry 0 0 [10, 12, 14, 16, 18, 20, 22, 24, 26, 28]
      ⟨none, none, none, none⟩ ⟨none, none, none, none⟩ 1 1 1 .U 16 = (16, 3 / 10) := by
  have hcast : (((16 : ℤ)) : ℝ) = (16 : ℝ) := by norm_num
  simp only [line_entry, raw_prob, MIN_EMPIRICAL, off_factor, pace_factor, def_factor,
    Option.getD_none, hcast]
  rw [if_pos (by norm_num)]
  rw [emp_under_16]
  norm_num [LG_OFF, LG_PACE, LG_DEF]

lemma entry_17 :
    line_entry 0 0 [10, 12, 14, 16, 18, 20, 22, 24, 26, 28]
      ⟨none, none, none, none⟩ ⟨none, none, none, none⟩ 1 1 1 .U 17 = (17, 4 / 10) := by
  have hcast : (((17 : ℤ)) : ℝ) = (17 : ℝ) := by norm_num
  simp only [line_entry, raw_prob, MIN_EMPIRICAL, off_factor, pace_factor, def_factor,
    Option.getD_none, hcast]
  rw [if_pos (by norm_num)]
  rw [emp_under_17]
  norm_num [LG_OFF, LG_PACE, LG_DEF]

lemma generate_probabilities_example :
    generate_probabilities 0 0 [10, 12, 14, 16, 18, 20, 22, 24, 26, 28]
      ⟨none, none, none, none⟩ ⟨none, none, none, none⟩ 1 1 1 .U 16 17 =
      [(16, 3 / 10), (17, 4 / 10)] := by
  simp only [generate_probabilities]
  rw [if_neg (by decide), sweepLines_16_17, List.map_cons, List.map_cons, List.map_nil,
    entry_16, entry_17]
  apply List.mergeSort_of_sorted
  refine List.Pairwise.cons ?_ (List.pairwise_singleton _ _)
  intro b hb
  rw [List.mem_singleton] at hb
  subst hb
  simp only [decide_eq_true_eq]
  norm_num

/-- Claim C1: every probability in the sweep output, and the single
probability of the single-line variant, lies in [0, 1]: the product of the
raw probability and the six context factors is clamped before being
returned. -/
theorem probabilities_clamped (bm bs : ℝ) (hist : List ℝ) (adv opp_adv : AdvDict)
    (im rm hm : ℝ) (ou : Dir) (lo hi : ℤ) (line_val : ℝ) :
    (∀ e ∈ generate_probabilities bm bs hist adv opp_adv im rm hm ou lo hi,
      0 ≤ e.2 ∧ e.2 ≤ 1) ∧
    (0 ≤ single_line_prob bm bs adv opp_adv line_val ou ∧
      single_line_prob bm bs adv opp_adv line_val ou ≤ 1) := by
  constructor
  · intro e he
    have he' : e ∈ (sweepLines lo hi).map
        (line_entry bm bs hist adv opp_adv im rm hm ou) := by
      simp only [generate_probabilities] at he
      split at he <;> exact List.mem_mergeSort.mp he
    obtain ⟨l, -, rfl⟩ := List.mem_map.mp he'
    simp only [line_entry]
    constructor
    · exact le_max_left _ _
    · apply max_le
      · norm_num
      · exact (min_le_left _ _).trans (by norm_num)
  · simp only [single_line_prob]
    constructor
    · have h0 : (0 : ℝ) ≤ (0.0 : ℝ) := by norm_num
      exact h0.trans (le_max_left _ _)
    · apply max_le
      · norm_num
      · exact (min_le_left _ _).trans (by norm_num)

/-- Claim C1 (witness): the concrete sweep entry (16, 3/10) of the sample
run passes the clamp bounds. -/
theorem probabilities_clamped_witness :
    0 ≤ ((16 : ℤ), (3 : ℝ) / 10).2 ∧ ((16 : ℤ), (3 : ℝ) / 10).2 ≤ 1 := by
  have hmem : ((16 : ℤ), (3 : ℝ) / 10) ∈
      generate_probabilities 0 0 [10, 12, 14, 16, 18, 20, 22, 24, 26, 28]
        ⟨none, none, none, none⟩ ⟨none, none, none, none⟩ 1 1 1 .U 16 17 := by
    rw [generate_probabilities_example]
    exact List.mem_cons_self _ _
  exact (probabilities_clamped 0 0 [10, 12, 14, 16, 18, 20, 22, 24, 26, 28]
    ⟨none, none, none, none⟩ ⟨none, none, none, none⟩ 1 1 1 .U 16 17 0).1 _ hmem

/-- Claim C2 (counterexample): an under-direction sweep is not sorted by
probability descending — with the 10-game sample over lines 16..17 the
under probabilities come back as 3/10 then 4/10. -/
theorem sweep_under_not_descending :
    ¬ (generate_probabilities 0 0 [10, 12, 14, 16, 18, 20, 22, 24, 26, 28]
        ⟨none, none, none, none⟩ ⟨none, none, none, none⟩ 1 1 1 .U 16 17).Pairwise
      (fun a b => b.2 ≤ a.2) := by
  rw [generate_probabilities_example]
  intro hp
  have h := List.rel_of_pairwise_cons hp (List.mem_singleton.mpr rfl)
  norm_num at h

/-- Claim C2 (amended): a sweep over the inclusive integer range [lo, hi]
with lo ≤ hi returns exactly hi − lo + 1 entries whose lines are exactly
the integers of the range, sorted by probability descending when the
direction is over and ascending when the direction is under. -/
theorem generate_probabilities_sweep (bm bs : ℝ) (hist : List ℝ) (adv opp_adv : AdvDict)
    (im rm hm : ℝ) (ou : Dir) (lo hi : ℤ) (h : lo ≤ hi) :
    ((generate_probabilities bm bs hist adv opp_adv im rm hm ou lo hi).length : ℤ) =
      hi - lo + 1 ∧
    ((generate_probabilities bm bs hist adv opp_adv im rm hm ou lo hi).map Prod.fst).Perm
      (sweepLines lo hi) ∧
    (ou = .O → (generate_probabilities bm bs hist adv opp_adv im rm hm ou lo hi).Pairwise
      (fun a b => b.2 ≤ a.2)) ∧
    (ou = .U → (generate_probabilities bm bs hist adv opp_adv im rm hm ou lo hi).Pairwise
      (fun a b => a.2 ≤ b.2)) := by
  have hlen : ∀ le : ℤ × ℝ → ℤ × ℝ → Bool,
      (((((sweepLines lo hi).map (line_entry bm bs hist adv opp_adv im rm hm ou)).mergeSort
        le).length : ℕ) : ℤ) = hi - lo + 1 := by
    intro le
    rw [List.length_mergeSort, List.length_map, sweepLines_length,
      Int.toNat_of_nonneg (by omega)]
    ring
  have hfst : ((sweepLines lo hi).map
      (line_entry bm bs hist adv opp_adv im rm hm ou)).map Prod.fst = sweepLines lo hi := by
    rw [List.map_map]
    have hcomp : (Prod.fst ∘ line_entry bm bs hist adv opp_adv im rm hm ou) = id := by
      funext l
      rfl
    rw [hcomp, List.map_id]
  have hperm : ∀ le : ℤ × ℝ → ℤ × ℝ → Bool,
      (((((sweepLines lo hi).map (line_entry bm bs hist adv opp_adv im rm hm ou)).mergeSort
        le).map Prod.fst)).Perm (sweepLines lo hi) := by
    intro le
    have h1 := (List.mergeSort_perm
      ((sweepLines lo hi).map (line_entry bm bs hist adv opp_adv im rm hm ou)) le).map Prod.fst
    rwa [hfst] at h1
  refine ⟨?_, ?_, ?_, ?_⟩
  · simp only [generate_probabilities]
    split
    · exact hlen _
    · exact hlen _
  · simp only [generate_probabilities]
    split
    · exact hperm _
    · exact hperm _
  · intro hou
    subst hou
    simp only [generate_probabilities]
    rw [if_pos trivial]
    refine List.Pairwise.imp (fun hab => of_decide_eq_true hab) ?_
    apply List.sorted_mergeSort
    · intro a b c hab hbc
      simp only [decide_eq_true_eq] at hab hbc ⊢
      exact hbc.trans hab
    · intro a b
      simp only [Bool.or_eq_true, decide_eq_true_eq]
      exact le_total _ _
  · intro hou
    subst hou
    simp only [generate_probabilities]
    rw [if_neg (by decide)]
    refine List.Pairwise.imp (fun hab => of_decide_eq_true hab) ?_
    apply List.sorted_mergeSort
    · intro a b c hab hbc
      simp only [decide_eq_true_eq] at hab hbc ⊢
      exact hab.trans hbc
    · intro a b
      simp only [Bool.or_eq_true, decide_eq_true_eq]
      exact le_total _ _

/-- Claim C2 (witness): the concrete sample sweep over 16..17 with
direction under returns 17 − 16 + 1 entries, its lines are exactly the
range, and it is sorted ascending by probability. -/
theorem generate_probabilities_sweep_witness :
    ((generate_probabilities 0 0 [10, 12, 14, 16, 18, 20, 22, 24, 26, 28]
        ⟨none, none, none, none⟩ ⟨none, none, none, none⟩ 1 1 1 .U 16 17).length : ℤ) =
      17 - 16 + 1 ∧
    (generate_probabilities 0 0 [10, 12, 14, 16, 18, 20, 22, 24, 26, 28]
        ⟨none, none, none, none⟩ ⟨none, none, none, none⟩ 1 1 1 .U 16 17).Pairwise
      (fun a b => a.2 ≤ b.2) := by
  have h := generate_probabilities_sweep 0 0 [10, 12, 14, 16, 18, 20, 22, 24, 26, 28]
    ⟨none, none, none, none⟩ ⟨none, none, none, none⟩ 1 1 1 .U 16 17 (by decide)
  exact ⟨h.1, h.2.2.2 rfl⟩

end NBAPred
